import Mathlib

/-
Verification of the in-memory mock fraud-detection backend
(src/mockServer/server.js): account/bet state machine and fraud rule engine.

Modelling conventions (shallow embedding of the JavaScript source):
  - JS Maps become association lists (List (String × _)) preserving
    insertion order; Map.get reads the first matching key, Map.set
    replaces the first matching entry in place or appends at the end.
  - JS numbers for amounts and odds become rationals; epoch-millisecond
    instants become integers; Date.now() is passed in as a parameter.
  - JS truthiness of the request fields: a number is falsy exactly when
    it is 0, a string exactly when it is empty, an absent field is falsy.
  - The base64 session token is modelled by the injective raw string
    userId ++ a separator ++ the timestamp, which base64-encoding is a
    bijection away from.
-/

namespace MockServer

/-- A bet request body as read by POST /bets/place: required fields
matchId, amount, odds, selection, the optional timestamp, and the
truthiness of the two unauthorized fields serverBypass / adminApproval. -/
structure BetData where
  matchId : String
  amount : Rat
  odds : Rat
  selection : String
  timestamp : Option Int
  serverBypass : Bool
  adminApproval : Bool
deriving DecidableEq

/-- A user record in the users map. -/
structure User where
  id : String
  username : String
  email : String
  password : String
  createdAt : Int
  status : String
deriving DecidableEq

/-- A fraud flag pushed onto accountFlags on a fraudulent bet attempt. -/
structure Flag where
  kind : String
  reason : String
  timestamp : Int
  data : BetData
deriving DecidableEq

/-- A persisted bet record in the bets map (the spread of the request
body plus id, userId, status, createdAt). -/
structure Bet where
  id : String
  userId : String
  matchId : String
  amount : Rat
  odds : Rat
  selection : String
  timestamp : Option Int
  serverBypass : Bool
  adminApproval : Bool
  status : String
  createdAt : Int
deriving DecidableEq

/-- The four in-memory stores of the mock server. Sessions map a token
to the id of the account it resolves to. -/
structure ServerState where
  users : List (String × User)
  bets : List (String × Bet)
  sessions : List (String × String)
  accountFlags : List (String × List Flag)
deriving DecidableEq

/-- JS Map.get: the value at the first entry with the given key. -/
def mapGet (k : String) : List (String × α) → Option α
  | [] => none
  | p :: ps => if p.1 = k then some p.2 else mapGet k ps

/-- JS Map.set: replace the value at the first entry with the given key,
keeping its position; append a new entry when the key is absent. -/
def mapSet (k : String) (v : α) : List (String × α) → List (String × α)
  | [] => [(k, v)]
  | p :: ps => if p.1 = k then (k, v) :: ps else p :: mapSet k v ps

theorem mapGet_mapSet_self (k : String) (v : α) (m : List (String × α)) :
    mapGet k (mapSet k v m) = some v := by
  induction m with
  | nil => simp [mapGet, mapSet]
  | cons p ps ih =>
    by_cases h : p.1 = k <;> simp [mapGet, mapSet, h, ih]

theorem mapGet_mapSet_ne (k k' : String) (v : α) (m : List (String × α))
    (h : k' ≠ k) : mapGet k (mapSet k' v m) = mapGet k m := by
  induction m with
  | nil => simp [mapGet, mapSet, h]
  | cons p ps ih =>
    by_cases hp : p.1 = k'
    · simp [mapGet, mapSet, hp, h, hp ▸ h]
    · simp only [mapSet, if_neg hp]
      by_cases hk : p.1 = k <;> simp [mapGet, hk, ih]

/-- The flag list of an account, defaulting to [] as in
accountFlags.get(userId) || []. -/
def flagsOf (uid : String) (st : ServerState) : List Flag :=
  (mapGet uid st.accountFlags).getD []

/-- The status of an account, when the account exists. -/
def statusOf (uid : String) (st : ServerState) : Option String :=
  (mapGet uid st.users).map (fun u => u.status)

/-- Whether pat occurs as a contiguous sublist of l. -/
def listInfix (pat : List Char) : List Char → Bool
  | [] => decide (pat = [])
  | x :: xs => pat.isPrefixOf (x :: xs) || listInfix pat xs

/-- JS String.prototype.includes: the pattern occurs as a contiguous
substring, tested on the character lists. -/
def jsIncludes (s pat : String) : Bool :=
  listInfix pat.toList s.toList

/-- The five fraud rules in source order: the boolean condition, the
reason string and the fraudType category each assigns. -/
def fraudRules (now : Int) (b : BetData) : List (Bool × String × String) :=
  [ (decide (b.amount ≤ 0),
      "Fraud detected: Invalid bet amount", "negative-amount"),
    (decide (20 < b.odds),
      "Fraud detected: Suspicious odds manipulation", "odds-manipulation"),
    (jsIncludes b.matchId "-altered",
      "Fraud detected: Match ID tampering detected", "match-alteration"),
    (b.timestamp.any (fun ts => decide (ts < now - 3600000)),
      "Fraud detected: Timestamp manipulation detected", "timestamp-manipulation"),
    (b.serverBypass || b.adminApproval,
      "Fraud detected: Unauthorized request fields", "request-tampering") ]

/-- One step of the accumulate-then-overwrite evaluation: a rule whose
condition holds overwrites the verdict triple. -/
def ovStep (v r : Bool × String × String) : Bool × String × String :=
  if r.1 then (true, r.2) else v

/-- The accumulate-then-overwrite evaluation of the source: the mutable
triple (isFraudulent, fraudReason, fraudType) starts (false, empty,
empty) and every rule whose condition holds overwrites it in turn. -/
def overwriteFold (l : List (Bool × String × String)) : Bool × String × String :=
  l.foldl ovStep (false, "", "")

/-- The fraud verdict of a bet request at evaluation instant now. -/
def evalFraud (now : Int) (b : BetData) : Bool × String × String :=
  overwriteFold (fraudRules now b)

/-- The bet-data validation of POST /bets/place: every required field
truthy (matchId and selection nonempty, amount and odds nonzero). -/
def validateBet (b : BetData) : Bool :=
  !(decide (b.matchId = "") || decide (b.amount = 0) ||
    decide (b.odds = 0) || decide (b.selection = ""))

/-- An authenticated API response: an error with HTTP status code and
error message, or a success payload. -/
inductive ApiRes (α : Type) where
  | err (code : Nat) (msg : String)
  | ok (a : α)
deriving DecidableEq

/-- The result of POST /auth/register after the auth-free routing:
an error response or the minted token together with the new user id. -/
inductive RegisterRes where
  | err (code : Nat) (msg : String)
  | ok (token : String) (userId : String)
deriving DecidableEq

/-- The result of POST /auth/login. -/
inductive LoginRes where
  | err (code : Nat) (msg : String)
  | ok (token : String)
deriving DecidableEq

/-- The public view of a bet in the 201 response of POST /bets/place. -/
structure BetPublic where
  id : String
  matchId : String
  selection : String
  odds : Rat
  amount : Rat
  status : String
deriving DecidableEq

/-- The result of POST /bets/place after authentication: the 400
missing-information error, the 400 fraud rejection carrying error,
fraudType and details, or the 201 acceptance. -/
inductive PlaceBetRes where
  | err (code : Nat) (msg : String)
  | fraud (error fraudType details : String)
  | ok (betId : String) (bet : BetPublic)
deriving DecidableEq

/-- One entry of the GET /bets/history response. -/
structure HistoryEntry where
  id : String
  matchId : String
  selection : String
  odds : Rat
  amount : Rat
  status : String
  createdAt : Int
deriving DecidableEq

/-- The 200 body of GET /users/account-status. -/
structure StatusReport where
  accountId : String
  status : String
  flags : List Flag
  restrictions : List String
  verificationStatus : String
  fraudWarnings : Nat
  lastUpdated : Int
deriving DecidableEq

/-- The result of GET /users/account-status after authentication. -/
inductive StatusRes where
  | err (code : Nat) (msg : String)
  | ok (report : StatusReport)
deriving DecidableEq

/-- JS String.prototype.split with a one-character separator, on the
character list. -/
def splitChar (c : Char) : List Char → List Char → List (List Char)
  | [], acc => [acc.reverse]
  | x :: xs, acc =>
    if x = c then acc.reverse :: splitChar c xs []
    else splitChar c xs (x :: acc)

/-- The token extraction authHeader && authHeader.split(' ')[1]: the
second space-separated component, when present and truthy (nonempty). -/
def extractToken : Option String → Option String
  | none => none
  | some h =>
    match (splitChar ' ' h.toList []).get? 1 with
    | none => none
    | some t => if t = [] then none else some (String.mk t)

/-- The authenticateToken middleware: run the handler with the account
id the session resolves the token to, else a 401 with the untouched
state. -/
def withAuth (st : ServerState) (authHeader : Option String)
    (handler : String → α × ServerState) : ApiRes α × ServerState :=
  match extractToken authHeader with
  | none => (ApiRes.err 401 "Unauthorized: Missing token", st)
  | some t =>
    match mapGet t st.sessions with
    | none => (ApiRes.err 401 "Unauthorized: Invalid token", st)
    | some uid => (ApiRes.ok (handler uid).1, (handler uid).2)

/-- POST /auth/register. The new user id is Date.now().toString() and
the token base64(userId:Date.now()), modelled as the raw string. -/
def register (now : Int) (st : ServerState)
    (username email password : String) : RegisterRes × ServerState :=
  if username = "" ∨ email = "" ∨ password = "" then
    (RegisterRes.err 400 "Missing required fields", st)
  else if (st.users.map (fun p => p.2)).any
      (fun u => decide (u.username = username ∨ u.email = email)) then
    (RegisterRes.err 409 "Username or email already exists", st)
  else
    let userId := toString now
    let user : User :=
      { id := userId, username := username, email := email,
        password := password, createdAt := now, status := "active" }
    let token := userId ++ ":" ++ toString now
    (RegisterRes.ok token userId,
      { st with
        users := mapSet userId user st.users,
        accountFlags := mapSet userId [] st.accountFlags,
        sessions := mapSet token userId st.sessions })

/-- POST /auth/login. -/
def login (now : Int) (st : ServerState)
    (username password : String) : LoginRes × ServerState :=
  match (st.users.map (fun p => p.2)).find?
      (fun u => decide (u.username = username ∧ u.password = password)) with
  | none => (LoginRes.err 401 "Invalid credentials", st)
  | some u =>
    if u.status = "blocked" then
      (LoginRes.err 403 "Account is blocked", st)
    else
      let token := u.id ++ ":" ++ toString now
      (LoginRes.ok token,
        { st with sessions := mapSet token u.id st.sessions })

/-- The fraud-attempt flag pushed for a rejected bet. -/
def mkFlag (now : Int) (reason : String) (b : BetData) : Flag :=
  { kind := "fraud_attempt", reason := reason, timestamp := now, data := b }

/-- The count of fraud-attempt flags of an account, as filtered both by
the blocking check and by the account-status report. -/
def fraudFlagCount (uid : String) (st : ServerState) : Nat :=
  ((flagsOf uid st).filter (fun f => decide (f.kind = "fraud_attempt"))).length

/-- The bet id BET-(Date.now())-(first five characters of the user id). -/
def betIdOf (now : Int) (userId : String) : String :=
  "BET-" ++ toString now ++ "-" ++ userId.take 5

/-- The bet record persisted for a legitimate request: the spread of the
request plus id, userId, status pending and createdAt. -/
def mkBet (now : Int) (userId : String) (b : BetData) : Bet :=
  { id := betIdOf now userId, userId := userId, matchId := b.matchId,
    amount := b.amount, odds := b.odds, selection := b.selection,
    timestamp := b.timestamp, serverBypass := b.serverBypass,
    adminApproval := b.adminApproval, status := "pending",
    createdAt := now }

/-- The public view of a bet in the 201 response. -/
def mkBetPublic (bet : Bet) : BetPublic :=
  { id := bet.id, matchId := bet.matchId, selection := bet.selection,
    odds := bet.odds, amount := bet.amount, status := bet.status }

/-- The body of POST /bets/place once authenticated as userId. -/
def placeBetCore (now : Int) (st : ServerState) (userId : String)
    (b : BetData) : PlaceBetRes × ServerState :=
  if validateBet b = false then
    (PlaceBetRes.err 400 "Missing required bet information", st)
  else
    let v := evalFraud now b
    if v.1 then
      let userFlags := (mapGet userId st.accountFlags).getD [] ++
        [mkFlag now v.2.1 b]
      let st1 := { st with accountFlags := mapSet userId userFlags st.accountFlags }
      let st2 :=
        if 3 ≤ (userFlags.filter (fun f => decide (f.kind = "fraud_attempt"))).length then
          match mapGet userId st1.users with
          | some u =>
            { st1 with users := mapSet userId { u with status := "blocked" } st1.users }
          | none => st1
        else st1
      (PlaceBetRes.fraud v.2.1 v.2.2 v.2.1, st2)
    else
      let bet := mkBet now userId b
      (PlaceBetRes.ok bet.id (mkBetPublic bet),
        { st with bets := mapSet bet.id bet st.bets })

/-- POST /bets/place with its authentication middleware. -/
def placeBet (now : Int) (st : ServerState) (authHeader : Option String)
    (b : BetData) : ApiRes PlaceBetRes × ServerState :=
  withAuth st authHeader (fun uid => placeBetCore now st uid b)

/-- The projection of a stored bet to a history entry. -/
def projectBet (b : Bet) : HistoryEntry :=
  { id := b.id, matchId := b.matchId, selection := b.selection,
    odds := b.odds, amount := b.amount, status := b.status,
    createdAt := b.createdAt }

/-- The descending-createdAt comparison of the history sort. -/
def newerEq (a b : Bet) : Prop := b.createdAt ≤ a.createdAt

instance : DecidableRel newerEq := fun a b =>
  inferInstanceAs (Decidable (b.createdAt ≤ a.createdAt))

instance : IsTotal Bet newerEq :=
  ⟨fun a b => le_total b.createdAt a.createdAt⟩

instance : IsTrans Bet newerEq :=
  ⟨fun _ _ _ h1 h2 => le_trans h2 h1⟩

/-- The body of GET /bets/history once authenticated as userId: the
bets of this user in store order, sorted newest-first by createdAt with
a stable sort (JS Array.prototype.sort is stable), projected to their
public view. -/
def historyCore (st : ServerState) (userId : String) : List HistoryEntry :=
  ((((st.bets.map (fun p => p.2)).filter
      (fun bet => decide (bet.userId = userId))).insertionSort newerEq).map
    projectBet)

/-- GET /bets/history with its authentication middleware. -/
def betHistory (_now : Int) (st : ServerState)
    (authHeader : Option String) : ApiRes (List HistoryEntry) × ServerState :=
  withAuth st authHeader (fun uid => (historyCore st uid, st))

/-- The body of GET /users/account-status once authenticated as
userId. -/
def accountStatusCore (now : Int) (st : ServerState)
    (userId : String) : StatusRes :=
  match mapGet userId st.users with
  | none => StatusRes.err 404 "User not found"
  | some user =>
    let userFlags := (mapGet userId st.accountFlags).getD []
    let hasFraudFlags := userFlags.any (fun f => decide (f.kind = "fraud_attempt"))
    StatusRes.ok
      { accountId := userId, status := user.status, flags := userFlags,
        restrictions :=
          if hasFraudFlags then ["betting_restricted", "withdrawal_restricted"]
          else [],
        verificationStatus :=
          if user.status = "blocked" then "rejected" else "verified",
        fraudWarnings :=
          (userFlags.filter (fun f => decide (f.kind = "fraud_attempt"))).length,
        lastUpdated := now }

/-- GET /users/account-status with its authentication middleware. -/
def accountStatus (now : Int) (st : ServerState)
    (authHeader : Option String) : ApiRes StatusRes × ServerState :=
  withAuth st authHeader (fun uid => (accountStatusCore now st uid, st))

/-- One request to the server, for stating properties about the whole
interface. -/
inductive Request where
  | register (username email password : String)
  | login (username password : String)
  | placeBet (authHeader : Option String) (b : BetData)
  | betHistory (authHeader : Option String)
  | accountStatus (authHeader : Option String)
  | health
deriving DecidableEq

/-- The state transition of one request (the response dropped). The
health endpoint and unknown routes read no store. -/
def step (now : Int) (st : ServerState) : Request → ServerState
  | Request.register u e p => (register now st u e p).2
  | Request.login u p => (login now st u p).2
  | Request.placeBet h b => (placeBet now st h b).2
  | Request.betHistory h => (betHistory now st h).2
  | Request.accountStatus h => (accountStatus now st h).2
  | Request.health => st

/-! Concrete fixtures used to evaluate the theorems on closed inputs. -/

/-- A registered active account. -/
def demoUser : User :=
  { id := "u1", username := "alice", email := "a@x", password := "pw",
    createdAt := 0, status := "active" }

/-- A server state holding one active account with a live session. -/
def demoState : ServerState :=
  { users := [("u1", demoUser)], bets := [],
    sessions := [("tok1", "u1")], accountFlags := [("u1", [])] }

/-- A well-formed bet request matching no fraud rule. -/
def legitBet : BetData :=
  { matchId := "M1", amount := 50, odds := 2, selection := "home",
    timestamp := none, serverBypass := false, adminApproval := false }

/-- A bet request matching rules 1, 2 and 3 at once. -/
def multiFraudBet : BetData :=
  { matchId := "M1-altered", amount := -5, odds := 25, selection := "home",
    timestamp := none, serverBypass := false, adminApproval := false }

/-- A bet request whose amount is exactly 0 and is otherwise well
formed. -/
def zeroAmountBet : BetData :=
  { matchId := "M1", amount := 0, odds := 2, selection := "home",
    timestamp := none, serverBypass := false, adminApproval := false }

/-- A bet request with a strictly negative amount, matching only the
negative-amount rule. -/
def negAmountBet : BetData :=
  { matchId := "M1", amount := -5, odds := 2, selection := "home",
    timestamp := none, serverBypass := false, adminApproval := false }

/-- The demo state with two prior fraud-attempt flags on the account. -/
def twoFlagState : ServerState :=
  { demoState with
    accountFlags :=
      [("u1", [mkFlag 1 "Fraud detected: Invalid bet amount" negAmountBet,
               mkFlag 2 "Fraud detected: Invalid bet amount" negAmountBet])] }

/-- The demo state with the account already blocked. -/
def blockedState : ServerState :=
  { demoState with users := [("u1", { demoUser with status := "blocked" })] }

/-- A state with three persisted bets, two of them owned by the demo
account with out-of-order creation instants. -/
def betsState : ServerState :=
  { demoState with
    bets :=
      [("BET-10-u1", mkBet 10 "u1" legitBet),
       ("BET-30-u2", mkBet 30 "u2" legitBet),
       ("BET-20-u1", mkBet 20 "u1" legitBet)] }

/-! ### Properties of the association-list maps -/

theorem mem_mapSet_self (k : String) (v : α) (m : List (String × α)) :
    (k, v) ∈ mapSet k v m := by
  induction m with
  | nil => simp [mapSet]
  | cons p ps ih => by_cases h : p.1 = k <;> simp [mapSet, h, ih]

theorem mapSet_of_mapGet_none (k : String) (v : α) (m : List (String × α))
    (h : mapGet k m = none) : mapSet k v m = m ++ [(k, v)] := by
  induction m with
  | nil => rfl
  | cons p ps ih =>
    by_cases hp : p.1 = k
    · simp [mapGet, hp] at h
    · simp only [mapGet, if_neg hp] at h
      simp [mapSet, hp, ih h]

/-! ### The overwrite fold: the last matching rule wins -/

theorem foldl_ovStep_no_match (l : List (Bool × String × String))
    (init : Bool × String × String)
    (h : l.filter (fun r => r.1) = []) : l.foldl ovStep init = init := by
  induction l generalizing init with
  | nil => rfl
  | cons a l ih =>
    by_cases ha : a.1 = true
    · rw [List.filter_cons, if_pos (by simpa using ha)] at h
      exact absurd h (List.cons_ne_nil _ _)
    · rw [List.filter_cons, if_neg (by simpa using ha)] at h
      rw [List.foldl_cons]
      have hstep : ovStep init a = init := by simp [ovStep, ha]
      rw [hstep]
      exact ih init h

theorem foldl_ovStep_last_match (l : List (Bool × String × String))
    (init r : Bool × String × String)
    (h : (l.filter (fun x => x.1)).getLast? = some r) :
    l.foldl ovStep init = (true, r.2) := by
  induction l generalizing init with
  | nil => simp at h
  | cons a l ih =>
    rw [List.foldl_cons]
    by_cases ha : a.1 = true
    · rw [List.filter_cons, if_pos (by simpa using ha)] at h
      have hstep : ovStep init a = (true, a.2) := by simp [ovStep, ha]
      rw [hstep]
      rcases hfl : l.filter (fun x => x.1) with _ | ⟨c, cs⟩
      · rw [hfl] at h
        simp only [List.getLast?_singleton, Option.some.injEq] at h
        rw [← h]
        exact foldl_ovStep_no_match l _ hfl
      · rw [hfl, List.getLast?_cons_cons] at h
        exact ih _ (by rw [hfl]; exact h)
    · rw [List.filter_cons, if_neg (by simpa using ha)] at h
      have hstep : ovStep init a = init := by simp [ovStep, ha]
      rw [hstep]
      exact ih init h

theorem evalFraud_of_lastMatch (now : Int) (b : BetData)
    (r : Bool × String × String)
    (h : ((fraudRules now b).filter (fun x => x.1)).getLast? = some r) :
    evalFraud now b = (true, r.2) :=
  foldl_ovStep_last_match _ _ _ h

theorem evalFraud_of_noMatch (now : Int) (b : BetData)
    (h : (fraudRules now b).filter (fun x => x.1) = []) :
    evalFraud now b = (false, "", "") :=
  foldl_ovStep_no_match _ _ h

theorem evalFraud_fst_true_iff (now : Int) (b : BetData) :
    (evalFraud now b).1 = true ↔ (fraudRules now b).filter (fun x => x.1) ≠ [] := by
  constructor
  · intro h hnil
    rw [evalFraud_of_noMatch now b hnil] at h
    simp at h
  · intro h
    rcases hfl : (fraudRules now b).filter (fun x => x.1) with _ | ⟨c, cs⟩
    · exact absurd hfl h
    · obtain ⟨r, hr⟩ : ∃ r, (c :: cs).getLast? = some r := ⟨(c :: cs).getLast (by simp), List.getLast?_eq_getLast _ _⟩
      rw [evalFraud_of_lastMatch now b r (hfl ▸ hr)]

/-! ### The branches of bet placement -/

theorem placeBetCore_invalid (now : Int) (st : ServerState) (uid : String)
    (b : BetData) (h : validateBet b = false) :
    placeBetCore now st uid b =
      (PlaceBetRes.err 400 "Missing required bet information", st) := by
  simp [placeBetCore, h]

theorem placeBetCore_legit (now : Int) (st : ServerState) (uid : String)
    (b : BetData) (hv : validateBet b = true)
    (hf : (evalFraud now b).1 = false) :
    placeBetCore now st uid b =
      (PlaceBetRes.ok (betIdOf now uid) (mkBetPublic (mkBet now uid b)),
       { st with bets := mapSet (betIdOf now uid) (mkBet now uid b) st.bets }) := by
  simp [placeBetCore, hv, hf, mkBet]

theorem placeBetCore_fraud_res (now : Int) (st : ServerState) (uid : String)
    (b : BetData) (hv : validateBet b = true)
    (hf : (evalFraud now b).1 = true) :
    (placeBetCore now st uid b).1 =
      PlaceBetRes.fraud (evalFraud now b).2.1 (evalFraud now b).2.2
        (evalFraud now b).2.1 := by
  simp [placeBetCore, hv, hf]

theorem placeBetCore_fraud_state (now : Int) (st : ServerState) (uid : String)
    (b : BetData) (hv : validateBet b = true)
    (hf : (evalFraud now b).1 = true) :
    (placeBetCore now st uid b).2 =
      (let userFlags := flagsOf uid st ++ [mkFlag now (evalFraud now b).2.1 b]
       let st1 := { st with accountFlags := mapSet uid userFlags st.accountFlags }
       if 3 ≤ (userFlags.filter (fun f => decide (f.kind = "fraud_attempt"))).length then
         match mapGet uid st1.users with
         | some u => { st1 with users := mapSet uid { u with status := "blocked" } st1.users }
         | none => st1
       else st1) := by
  simp [placeBetCore, hv, hf, flagsOf]

theorem placeBetCore_fraud_bets (now : Int) (st : ServerState) (uid : String)
    (b : BetData) (hv : validateBet b = true)
    (hf : (evalFraud now b).1 = true) :
    (placeBetCore now st uid b).2.bets = st.bets := by
  rw [placeBetCore_fraud_state now st uid b hv hf]
  dsimp only
  split
  · split <;> rfl
  · rfl

theorem placeBetCore_fraud_sessions (now : Int) (st : ServerState) (uid : String)
    (b : BetData) (hv : validateBet b = true)
    (hf : (evalFraud now b).1 = true) :
    (placeBetCore now st uid b).2.sessions = st.sessions := by
  rw [placeBetCore_fraud_state now st uid b hv hf]
  dsimp only
  split
  · split <;> rfl
  · rfl

theorem placeBetCore_fraud_accountFlags (now : Int) (st : ServerState)
    (uid : String) (b : BetData) (hv : validateBet b = true)
    (hf : (evalFraud now b).1 = true) :
    (placeBetCore now st uid b).2.accountFlags =
      mapSet uid (flagsOf uid st ++ [mkFlag now (evalFraud now b).2.1 b])
        st.accountFlags := by
  rw [placeBetCore_fraud_state now st uid b hv hf]
  dsimp only
  split
  · split <;> rfl
  · rfl

theorem placeBetCore_fraud_flagsOf (now : Int) (st : ServerState)
    (uid : String) (b : BetData) (hv : validateBet b = true)
    (hf : (evalFraud now b).1 = true) :
    flagsOf uid (placeBetCore now st uid b).2 =
      flagsOf uid st ++ [mkFlag now (evalFraud now b).2.1 b] := by
  show ((mapGet uid (placeBetCore now st uid b).2.accountFlags).getD []) = _
  rw [placeBetCore_fraud_accountFlags now st uid b hv hf, mapGet_mapSet_self]
  rfl

theorem filter_fraud_append (fl : List Flag) (now : Int) (r : String)
    (b : BetData) :
    (fl ++ [mkFlag now r b]).filter (fun f => decide (f.kind = "fraud_attempt")) =
      fl.filter (fun f => decide (f.kind = "fraud_attempt")) ++ [mkFlag now r b] := by
  simp [mkFlag]

theorem placeBetCore_fraud_count (now : Int) (st : ServerState)
    (uid : String) (b : BetData) (hv : validateBet b = true)
    (hf : (evalFraud now b).1 = true) :
    fraudFlagCount uid (placeBetCore now st uid b).2 =
      fraudFlagCount uid st + 1 := by
  unfold fraudFlagCount
  rw [placeBetCore_fraud_flagsOf now st uid b hv hf, filter_fraud_append]
  simp

theorem placeBetCore_fraud_users (now : Int) (st : ServerState) (uid : String)
    (b : BetData) (hv : validateBet b = true)
    (hf : (evalFraud now b).1 = true) :
    (placeBetCore now st uid b).2.users =
      (if 2 ≤ fraudFlagCount uid st then
        match mapGet uid st.users with
        | some u => mapSet uid { u with status := "blocked" } st.users
        | none => st.users
       else st.users) := by
  rw [placeBetCore_fraud_state now st uid b hv hf]
  dsimp only
  rw [filter_fraud_append]
  have hlen : ((flagsOf uid st).filter
      (fun f => decide (f.kind = "fraud_attempt")) ++ [mkFlag now (evalFraud now b).2.1 b]).length =
      fraudFlagCount uid st + 1 := by simp [fraudFlagCount]
  rw [hlen]
  by_cases hc : 2 ≤ fraudFlagCount uid st
  · rw [if_pos (by omega : 3 ≤ fraudFlagCount uid st + 1), if_pos hc]
    split <;> rfl
  · rw [if_neg (by omega : ¬ 3 ≤ fraudFlagCount uid st + 1), if_neg hc]

/-! ### The authentication middleware -/

theorem withAuth_missing (st : ServerState) (h : Option String)
    (handler : String → α × ServerState) (he : extractToken h = none) :
    withAuth st h handler = (ApiRes.err 401 "Unauthorized: Missing token", st) := by
  simp [withAuth, he]

theorem withAuth_invalid (st : ServerState) (h : Option String) (t : String)
    (handler : String → α × ServerState) (he : extractToken h = some t)
    (hs : mapGet t st.sessions = none) :
    withAuth st h handler = (ApiRes.err 401 "Unauthorized: Invalid token", st) := by
  simp [withAuth, he, hs]

theorem withAuth_ok (st : ServerState) (h : Option String) (t uid : String)
    (handler : String → α × ServerState) (he : extractToken h = some t)
    (hs : mapGet t st.sessions = some uid) :
    withAuth st h handler = (ApiRes.ok (handler uid).1, (handler uid).2) := by
  simp [withAuth, he, hs]

theorem withAuth_state_cases (st : ServerState) (h : Option String)
    (handler : String → α × ServerState) :
    (withAuth st h handler).2 = st ∨
    ∃ uid, (withAuth st h handler).2 = (handler uid).2 := by
  unfold withAuth
  rcases extractToken h with _ | t
  · exact Or.inl rfl
  · dsimp only
    rcases mapGet t st.sessions with _ | uid
    · exact Or.inl rfl
    · exact Or.inr ⟨uid, rfl⟩

/-! ### State preservation of the read-only and login routes -/

theorem login_users (now : Int) (st : ServerState) (username password : String) :
    (login now st username password).2.users = st.users := by
  unfold login
  split
  · rfl
  · dsimp only
    split <;> rfl

theorem betHistory_state (now : Int) (st : ServerState) (h : Option String) :
    (betHistory now st h).2 = st := by
  unfold betHistory
  rcases withAuth_state_cases st h (fun uid => (historyCore st uid, st)) with hc | ⟨uid, hc⟩ <;>
    simpa using hc

theorem accountStatus_state (now : Int) (st : ServerState) (h : Option String) :
    (accountStatus now st h).2 = st := by
  unfold accountStatus
  rcases withAuth_state_cases st h (fun uid => (accountStatusCore now st uid, st)) with hc | ⟨uid, hc⟩ <;>
    simpa using hc

theorem placeBetCore_users_cases (now : Int) (st : ServerState) (uid : String)
    (b : BetData) :
    (placeBetCore now st uid b).2.users = st.users ∨
    ∃ u, mapGet uid st.users = some u ∧
      (placeBetCore now st uid b).2.users =
        mapSet uid { u with status := "blocked" } st.users := by
  rcases hval : validateBet b with _ | _
  · rw [placeBetCore_invalid now st uid b hval]
    exact Or.inl rfl
  · rcases hev : (evalFraud now b).1 with _ | _
    · rw [placeBetCore_legit now st uid b hval hev]
      exact Or.inl rfl
    · rw [placeBetCore_fraud_users now st uid b hval hev]
      split
      · rcases hu : mapGet uid st.users with _ | u
        · exact Or.inl rfl
        · exact Or.inr ⟨u, rfl, rfl⟩
      · exact Or.inl rfl

/-! ### The claims -/

/-- Claim C1: for every bet request that passes field validation and
matches more than one fraud rule, the fraudType and reason of the 400
response and the reason of the appended flag are those of the last rule
in the fixed evaluation order whose condition is true; no earlier
matching rule survives. -/
theorem c1_last_matching_rule_wins (now : Int) (st : ServerState)
    (uid : String) (b : BetData) (r : Bool × String × String)
    (hv : validateBet b = true)
    (_hm : 2 ≤ ((fraudRules now b).filter (fun x => x.1)).length)
    (hl : ((fraudRules now b).filter (fun x => x.1)).getLast? = some r) :
    (placeBetCore now st uid b).1 = PlaceBetRes.fraud r.2.1 r.2.2 r.2.1 ∧
    flagsOf uid (placeBetCore now st uid b).2 =
      flagsOf uid st ++ [mkFlag now r.2.1 b] := by
  have hev : evalFraud now b = (true, r.2) := evalFraud_of_lastMatch now b r hl
  have hf : (evalFraud now b).1 = true := by rw [hev]
  constructor
  · rw [placeBetCore_fraud_res now st uid b hv hf, hev]
  · rw [placeBetCore_fraud_flagsOf now st uid b hv hf, hev]

theorem c1_witness :
    (placeBetCore 0 demoState "u1" multiFraudBet).1 =
      PlaceBetRes.fraud "Fraud detected: Match ID tampering detected"
        "match-alteration" "Fraud detected: Match ID tampering detected" ∧
    flagsOf "u1" (placeBetCore 0 demoState "u1" multiFraudBet).2 =
      flagsOf "u1" demoState ++
        [mkFlag 0 "Fraud detected: Match ID tampering detected" multiFraudBet] :=
  c1_last_matching_rule_wins 0 demoState "u1" multiFraudBet
    (true, "Fraud detected: Match ID tampering detected", "match-alteration")
    (by decide) (by decide) (by decide)

/-- Claim C2, counterexample to the unamended claim: an authenticated
bet request with amount exactly 0 has amount less than or equal to 0,
yet its rejection is the 400 missing-information validation failure,
the state is unchanged and no negative-amount flag is appended. -/
theorem c2_counterexample :
    zeroAmountBet.amount ≤ 0 ∧
    placeBetCore 0 demoState "u1" zeroAmountBet =
      (PlaceBetRes.err 400 "Missing required bet information", demoState) ∧
    flagsOf "u1" (placeBetCore 0 demoState "u1" zeroAmountBet).2 =
      flagsOf "u1" demoState :=
  ⟨by decide, by decide, by decide⟩

/-- Claim C2 as amended: for every authenticated bet request that
passes field validation and whose amount is at most 0, bet placement
rejects the request, leaves the Bet Store unchanged and appends a
fraud-attempt flag; the reported category is negative-amount unless a
later rule in evaluation order also matches, in which case the reported
fields are those of the last matching rule. -/
theorem c2_negative_amount_flagged (now : Int) (st : ServerState)
    (uid : String) (b : BetData) (r : Bool × String × String)
    (hv : validateBet b = true) (hneg : b.amount ≤ 0)
    (hl : ((fraudRules now b).filter (fun x => x.1)).getLast? = some r) :
    (placeBetCore now st uid b).2.bets = st.bets ∧
    (placeBetCore now st uid b).1 = PlaceBetRes.fraud r.2.1 r.2.2 r.2.1 ∧
    flagsOf uid (placeBetCore now st uid b).2 =
      flagsOf uid st ++ [mkFlag now r.2.1 b] ∧
    (¬ 20 < b.odds → jsIncludes b.matchId "-altered" = false →
      b.timestamp.any (fun ts => decide (ts < now - 3600000)) = false →
      (b.serverBypass || b.adminApproval) = false →
      r.2 = ("Fraud detected: Invalid bet amount", "negative-amount")) := by
  have hev : evalFraud now b = (true, r.2) := evalFraud_of_lastMatch now b r hl
  have hf : (evalFraud now b).1 = true := by rw [hev]
  refine ⟨placeBetCore_fraud_bets now st uid b hv hf, ?_, ?_, ?_⟩
  · rw [placeBetCore_fraud_res now st uid b hv hf, hev]
  · rw [placeBetCore_fraud_flagsOf now st uid b hv hf, hev]
  · intro h2 h3 h4 h5
    have hfl : (fraudRules now b).filter (fun x => x.1) =
        [(true, "Fraud detected: Invalid bet amount", "negative-amount")] := by
      simp [fraudRules, hneg, h2, h3, h4, h5]
    rw [hfl] at hl
    simp only [List.getLast?_singleton, Option.some.injEq] at hl
    rw [← hl]

theorem c2_witness :
    (placeBetCore 0 demoState "u1" negAmountBet).2.bets = demoState.bets ∧
    (placeBetCore 0 demoState "u1" negAmountBet).1 =
      PlaceBetRes.fraud "Fraud detected: Invalid bet amount"
        "negative-amount" "Fraud detected: Invalid bet amount" ∧
    flagsOf "u1" (placeBetCore 0 demoState "u1" negAmountBet).2 =
      flagsOf "u1" demoState ++
        [mkFlag 0 "Fraud detected: Invalid bet amount" negAmountBet] ∧
    (¬ 20 < negAmountBet.odds →
      jsIncludes negAmountBet.matchId "-altered" = false →
      negAmountBet.timestamp.any (fun ts => decide (ts < 0 - 3600000)) = false →
      (negAmountBet.serverBypass || negAmountBet.adminApproval) = false →
      ((true, "Fraud detected: Invalid bet amount",
        "negative-amount") : Bool × String × String).2 =
        ("Fraud detected: Invalid bet amount", "negative-amount")) :=
  c2_negative_amount_flagged 0 demoState "u1" negAmountBet
    (true, "Fraud detected: Invalid bet amount", "negative-amount")
    (by decide) (by decide) (by decide)

/-- Claim C3: in one bet-placement call, flag append happens only on a
fraudulent verdict and bet creation only on a legitimate one, never
both: a validation failure changes nothing, a fraud rejection leaves
the Bet Store unchanged and appends exactly one flag, and an acceptance
creates exactly one pending Bet record owned by the caller while
leaving users (hence statuses) and flags unchanged. -/
theorem c3_flag_and_bet_mutually_exclusive (now : Int) (st : ServerState)
    (uid : String) (b : BetData) :
    ((placeBetCore now st uid b).1 =
        PlaceBetRes.err 400 "Missing required bet information" →
      (placeBetCore now st uid b).2 = st) ∧
    (∀ e ft d, (placeBetCore now st uid b).1 = PlaceBetRes.fraud e ft d →
      (placeBetCore now st uid b).2.bets = st.bets ∧
      flagsOf uid (placeBetCore now st uid b).2 =
        flagsOf uid st ++ [mkFlag now e b]) ∧
    (∀ bid bp, (placeBetCore now st uid b).1 = PlaceBetRes.ok bid bp →
      (placeBetCore now st uid b).2.users = st.users ∧
      (placeBetCore now st uid b).2.accountFlags = st.accountFlags ∧
      bid = betIdOf now uid ∧ bp = mkBetPublic (mkBet now uid b) ∧
      (mkBet now uid b).status = "pending" ∧
      (mkBet now uid b).userId = uid ∧
      (placeBetCore now st uid b).2.bets =
        mapSet (betIdOf now uid) (mkBet now uid b) st.bets ∧
      (mapGet (betIdOf now uid) st.bets = none →
        (placeBetCore now st uid b).2.bets.length = st.bets.length + 1)) := by
  rcases hval : validateBet b with _ | _
  · rw [placeBetCore_invalid now st uid b hval]
    refine ⟨fun _ => rfl, fun e ft d h => ?_, fun bid bp h => ?_⟩
    · exact absurd h (by simp)
    · exact absurd h (by simp)
  · rcases hev : (evalFraud now b).1 with _ | _
    · rw [placeBetCore_legit now st uid b hval hev]
      refine ⟨fun h => absurd h (by simp), fun e ft d h => absurd h (by simp),
        fun bid bp h => ?_⟩
      injection h with h1 h2
      have hbid : bid = betIdOf now uid := h1.symm
      have hbp : bp = mkBetPublic (mkBet now uid b) := h2.symm
      refine ⟨rfl, rfl, hbid, hbp, rfl, rfl, rfl, fun hfresh => ?_⟩
      show (mapSet (betIdOf now uid) (mkBet now uid b) st.bets).length = _
      rw [mapSet_of_mapGet_none _ _ _ hfresh]
      simp
    · refine ⟨?_, fun e ft d h => ?_, fun bid bp h => ?_⟩
      · rw [placeBetCore_fraud_res now st uid b hval hev]
        intro h; cases h
      · have he : e = (evalFraud now b).2.1 := by
          rw [placeBetCore_fraud_res now st uid b hval hev] at h
          cases h; rfl
        rw [he]
        exact ⟨placeBetCore_fraud_bets now st uid b hval hev,
          placeBetCore_fraud_flagsOf now st uid b hval hev⟩
      · rw [placeBetCore_fraud_res now st uid b hval hev] at h
        cases h

theorem c3_witness :
    (placeBetCore 0 demoState "u1" legitBet).2.users = demoState.users ∧
    (placeBetCore 0 demoState "u1" legitBet).2.accountFlags =
      demoState.accountFlags ∧
    (placeBetCore 0 demoState "u1" legitBet).2.bets.length =
      demoState.bets.length + 1 ∧
    (placeBetCore 0 demoState "u1" negAmountBet).2.bets = demoState.bets := by
  have hok := (c3_flag_and_bet_mutually_exclusive 0 demoState "u1" legitBet).2.2
    (betIdOf 0 "u1") (mkBetPublic (mkBet 0 "u1" legitBet)) (by decide)
  have hfr := (c3_flag_and_bet_mutually_exclusive 0 demoState "u1" negAmountBet).2.1
    "Fraud detected: Invalid bet amount" "negative-amount"
    "Fraud detected: Invalid bet amount" (by decide)
  exact ⟨hok.1, hok.2.1, hok.2.2.2.2.2.2.2 (by decide), hfr.1⟩

/-- Claim C10: a bet request in which amount is exactly 0, or odds is
exactly 0, or matchId or selection is the empty string, is rejected by
the required-field check as 400 Missing required bet information with
no store change: no fraud rule is consulted and no flag is appended, so
a zero amount is never flagged as negative-amount fraud. -/
theorem c10_falsy_field_is_validation_failure (now : Int) (st : ServerState)
    (uid : String) (b : BetData)
    (h : b.amount = 0 ∨ b.odds = 0 ∨ b.matchId = "" ∨ b.selection = "") :
    placeBetCore now st uid b =
      (PlaceBetRes.err 400 "Missing required bet information", st) := by
  apply placeBetCore_invalid
  rcases h with h | h | h | h <;> simp [validateBet, h]

theorem c10_witness :
    placeBetCore 0 demoState "u1" zeroAmountBet =
      (PlaceBetRes.err 400 "Missing required bet information", demoState) :=
  c10_falsy_field_is_validation_failure 0 demoState "u1" zeroAmountBet
    (by decide)

/-- Claim C4: once the flag append of a fraudulent bet placement brings
the count of fraud-attempt flags of an account to 3 or more, the
account status becomes blocked; and a blocked account stays blocked
under every further non-registration request (fraud attempts,
legitimate bet attempts, logins, history and status queries), so the
transition is idempotent on already-blocked accounts. -/
theorem c4_third_flag_blocks_and_blocked_is_permanent :
    (∀ (now : Int) (st : ServerState) (uid : String) (u : User) (b : BetData),
      validateBet b = true → (evalFraud now b).1 = true →
      mapGet uid st.users = some u →
      3 ≤ fraudFlagCount uid (placeBetCore now st uid b).2 →
      statusOf uid (placeBetCore now st uid b).2 = some "blocked") ∧
    (∀ (now : Int) (st : ServerState) (uid : String) (u : User) (r : Request),
      mapGet uid st.users = some u → u.status = "blocked" →
      (∀ un em pw, r ≠ Request.register un em pw) →
      ∃ u2, mapGet uid (step now st r).users = some u2 ∧
        u2.status = "blocked") := by
  constructor
  · intro now st uid u b hv hf hu hcount
    rw [placeBetCore_fraud_count now st uid b hv hf] at hcount
    have hc2 : 2 ≤ fraudFlagCount uid st := by omega
    unfold statusOf
    rw [placeBetCore_fraud_users now st uid b hv hf, if_pos hc2, hu]
    simp [mapGet_mapSet_self]
  · intro now st uid u r hu hb hnr
    cases r with
    | register un em pw => exact absurd rfl (hnr un em pw)
    | login un pw =>
      refine ⟨u, ?_, hb⟩
      show mapGet uid (login now st un pw).2.users = some u
      rw [login_users]
      exact hu
    | placeBet h b =>
      show ∃ u2, mapGet uid (placeBet now st h b).2.users = some u2 ∧
        u2.status = "blocked"
      rcases withAuth_state_cases st h (fun uid2 => placeBetCore now st uid2 b)
        with hc | ⟨uid2, hc⟩
      · refine ⟨u, ?_, hb⟩
        show mapGet uid (withAuth st h (fun uid2 => placeBetCore now st uid2 b)).2.users = some u
        rw [hc]
        exact hu
      · rcases placeBetCore_users_cases now st uid2 b with hs | ⟨u2, hu2, hs⟩
        · refine ⟨u, ?_, hb⟩
          show mapGet uid (withAuth st h (fun uid2 => placeBetCore now st uid2 b)).2.users = some u
          rw [hc, hs]
          exact hu
        · by_cases huid : uid2 = uid
          · subst huid
            refine ⟨{ u2 with status := "blocked" }, ?_, rfl⟩
            show mapGet uid2 (withAuth st h (fun uid3 => placeBetCore now st uid3 b)).2.users = _
            rw [hc, hs, mapGet_mapSet_self]
          · refine ⟨u, ?_, hb⟩
            show mapGet uid (withAuth st h (fun uid3 => placeBetCore now st uid3 b)).2.users = some u
            rw [hc, hs, mapGet_mapSet_ne uid uid2 _ _ huid]
            exact hu
    | betHistory h =>
      refine ⟨u, ?_, hb⟩
      show mapGet uid (betHistory now st h).2.users = some u
      rw [betHistory_state]
      exact hu
    | accountStatus h =>
      refine ⟨u, ?_, hb⟩
      show mapGet uid (accountStatus now st h).2.users = some u
      rw [accountStatus_state]
      exact hu
    | health => exact ⟨u, hu, hb⟩

theorem c4_witness :
    statusOf "u1" (placeBetCore 5 twoFlagState "u1" negAmountBet).2 =
      some "blocked" ∧
    ∃ u2, mapGet "u1"
        (step 9 blockedState (Request.login "alice" "pw")).users = some u2 ∧
      u2.status = "blocked" :=
  ⟨c4_third_flag_blocks_and_blocked_is_permanent.1 5 twoFlagState "u1"
      demoUser negAmountBet (by decide) (by decide) (by decide) (by decide),
   c4_third_flag_blocks_and_blocked_is_permanent.2 9 blockedState "u1"
      { demoUser with status := "blocked" } (Request.login "alice" "pw")
      (by decide) rfl (fun un em pw h => Request.noConfusion h)⟩

/-- Claim C5: each protected operation returns 401 Unauthorized:
Missing token when no token can be extracted from the Authorization
header, 401 Unauthorized: Invalid token when the extracted token does
not resolve in the session store, leaving every store unchanged in both
cases; and on a resolvable token it runs the handler with the resolved
account identity. -/
theorem c5_authentication_gate (now : Int) (st : ServerState)
    (h : Option String) (b : BetData) :
    (extractToken h = none →
      placeBet now st h b = (ApiRes.err 401 "Unauthorized: Missing token", st) ∧
      betHistory now st h = (ApiRes.err 401 "Unauthorized: Missing token", st) ∧
      accountStatus now st h = (ApiRes.err 401 "Unauthorized: Missing token", st)) ∧
    (∀ t, extractToken h = some t → mapGet t st.sessions = none →
      placeBet now st h b = (ApiRes.err 401 "Unauthorized: Invalid token", st) ∧
      betHistory now st h = (ApiRes.err 401 "Unauthorized: Invalid token", st) ∧
      accountStatus now st h = (ApiRes.err 401 "Unauthorized: Invalid token", st)) ∧
    (∀ t uid, extractToken h = some t → mapGet t st.sessions = some uid →
      placeBet now st h b =
        (ApiRes.ok (placeBetCore now st uid b).1, (placeBetCore now st uid b).2) ∧
      betHistory now st h = (ApiRes.ok (historyCore st uid), st) ∧
      accountStatus now st h = (ApiRes.ok (accountStatusCore now st uid), st)) := by
  refine ⟨fun he => ⟨?_, ?_, ?_⟩, fun t he hs => ⟨?_, ?_, ?_⟩,
    fun t uid he hs => ⟨?_, ?_, ?_⟩⟩ <;>
    first
      | exact withAuth_missing _ _ _ he
      | exact withAuth_invalid _ _ _ _ he hs
      | exact withAuth_ok _ _ _ _ _ he hs

theorem c5_witness :
    placeBet 0 demoState none legitBet =
      (ApiRes.err 401 "Unauthorized: Missing token", demoState) ∧
    betHistory 0 demoState (some "Bearer nope") =
      (ApiRes.err 401 "Unauthorized: Invalid token", demoState) ∧
    accountStatus 3 demoState (some "Bearer tok1") =
      (ApiRes.ok (accountStatusCore 3 demoState "u1"), demoState) :=
  ⟨((c5_authentication_gate 0 demoState none legitBet).1 (by decide)).1,
   ((c5_authentication_gate 0 demoState (some "Bearer nope") legitBet).2.1
      "nope" (by decide) (by decide)).2.1,
   ((c5_authentication_gate 3 demoState (some "Bearer tok1") legitBet).2.2
      "tok1" "u1" (by decide) (by decide)).2.2⟩

/-- Claim C6 counterexample: with alice registered, a registration
request for the existing username alice with a different email and an
empty password is rejected by field validation as 400, not with the
409 conflict the claim requires for every such state and request. -/
theorem c6_counterexample :
    (∃ p ∈ demoState.users, p.2.username = "alice") ∧
    register 9 demoState "alice" "b@y" "" =
      (RegisterRes.err 400 "Missing required fields", demoState) ∧
    RegisterRes.err 400 "Missing required fields" ≠
      RegisterRes.err 409 "Username or email already exists" :=
  ⟨by decide, by decide, by decide⟩

/-- Claim C6 as amended: for every state and every registration request
that passes the required-field validation and whose username or email
equals that of an existing account, registration returns 409 and leaves
every store unchanged, creating no account, flag list or session token;
in particular a successful registration followed by a second attempt
for the same username with validated fields yields 409 even when the
email differs. -/
theorem c6_duplicate_registration_conflicts :
    (∀ (now : Int) (st : ServerState) (username email password : String),
      username ≠ "" → email ≠ "" → password ≠ "" →
      (∃ p ∈ st.users, p.2.username = username ∨ p.2.email = email) →
      register now st username email password =
        (RegisterRes.err 409 "Username or email already exists", st)) ∧
    (∀ (now1 now2 : Int) (st : ServerState) (u e p e2 p2 tok uid : String),
      (register now1 st u e p).1 = RegisterRes.ok tok uid →
      e2 ≠ "" → p2 ≠ "" →
      (register now2 (register now1 st u e p).2 u e2 p2).1 =
        RegisterRes.err 409 "Username or email already exists") := by
  have main : ∀ (now : Int) (st : ServerState) (username email password : String),
      username ≠ "" → email ≠ "" → password ≠ "" →
      (∃ p ∈ st.users, p.2.username = username ∨ p.2.email = email) →
      register now st username email password =
        (RegisterRes.err 409 "Username or email already exists", st) := by
    intro now st username email password hu he hp hex
    obtain ⟨q, hqmem, hqor⟩ := hex
    have hany : ((st.users.map (fun p => p.2)).any
        (fun u2 => decide (u2.username = username ∨ u2.email = email))) = true := by
      rw [List.any_eq_true]
      exact ⟨q.2, List.mem_map_of_mem _ hqmem, by simpa using hqor⟩
    unfold register
    rw [if_neg (by tauto), if_pos hany]
  refine ⟨main, fun now1 now2 st u e p e2 p2 tok uid hok he2 hp2 => ?_⟩
  by_cases h1 : u = "" ∨ e = "" ∨ p = ""
  · unfold register at hok
    rw [if_pos h1] at hok
    simp at hok
  · by_cases h2 : ((st.users.map (fun p => p.2)).any
        (fun u2 => decide (u2.username = u ∨ u2.email = e))) = true
    · unfold register at hok
      rw [if_neg h1, if_pos h2] at hok
      simp at hok
    · have husers : (register now1 st u e p).2.users =
          mapSet (toString now1)
            { id := toString now1, username := u, email := e, password := p,
              createdAt := now1, status := "active" } st.users := by
        unfold register
        rw [if_neg h1, if_neg h2]
      have hu : u ≠ "" := fun hcon => h1 (Or.inl hcon)
      have hfinal := main now2 (register now1 st u e p).2 u e2 p2 hu he2 hp2
        ⟨(toString now1,
          { id := toString now1, username := u, email := e, password := p,
            createdAt := now1, status := "active" }),
          by rw [husers]; exact mem_mapSet_self _ _ _, Or.inl rfl⟩
      rw [hfinal]

theorem c6_witness :
    register 9 demoState "alice" "b@y" "pw2" =
      (RegisterRes.err 409 "Username or email already exists", demoState) ∧
    (register 8 (register 7 demoState "bob" "b@x" "pw").2 "bob" "c@z" "pw3").1 =
      RegisterRes.err 409 "Username or email already exists" :=
  ⟨c6_duplicate_registration_conflicts.1 9 demoState "alice" "b@y" "pw2"
      (by decide) (by decide) (by decide)
      ⟨("u1", demoUser), by decide, Or.inl (by decide)⟩,
   c6_duplicate_registration_conflicts.2 7 8 demoState "bob" "b@x" "pw"
      "c@z" "pw3" "7:7" "7" (by decide) (by decide) (by decide)⟩

/-- Claim C7: the bet history of an account is exactly the projection
of the bets of that account in the store (and of no other account),
ordered newest-first by creation timestamp, each entry carrying id,
matchId, selection, odds, amount, status and createdAt. -/
theorem c7_history_newest_first_and_own_bets (st : ServerState) (uid : String) :
    List.Pairwise (fun x y => y.createdAt ≤ x.createdAt) (historyCore st uid) ∧
    (historyCore st uid).Perm
      (((st.bets.map (fun p => p.2)).filter
        (fun bet => decide (bet.userId = uid))).map projectBet) ∧
    (∀ h ∈ historyCore st uid,
      ∃ bet, (∃ k, (k, bet) ∈ st.bets) ∧ bet.userId = uid ∧
        projectBet bet = h) := by
  refine ⟨?_, ?_, ?_⟩
  · exact List.Pairwise.map projectBet (fun a b hab => hab)
      (List.sorted_insertionSort newerEq _)
  · exact (List.perm_insertionSort newerEq _).map projectBet
  · intro h hmem
    unfold historyCore at hmem
    obtain ⟨bet, hbet, hproj⟩ := List.mem_map.mp hmem
    have hfil : bet ∈ (st.bets.map (fun p => p.2)).filter
        (fun bet => decide (bet.userId = uid)) :=
      ((List.perm_insertionSort newerEq _).mem_iff).mp hbet
    obtain ⟨hmem2, hdec⟩ := List.mem_filter.mp hfil
    obtain ⟨⟨k, v⟩, hq, hq2⟩ := List.mem_map.mp hmem2
    dsimp only at hq2
    subst hq2
    exact ⟨v, ⟨k, hq⟩, by simpa using hdec, hproj⟩

theorem c7_witness :
    List.Pairwise (fun x y => y.createdAt ≤ x.createdAt)
      (historyCore betsState "u1") ∧
    (historyCore betsState "u1").Perm
      (((betsState.bets.map (fun p => p.2)).filter
        (fun bet => decide (bet.userId = "u1"))).map projectBet) :=
  ⟨(c7_history_newest_first_and_own_bets betsState "u1").1,
   (c7_history_newest_first_and_own_bets betsState "u1").2.1⟩

/-- Claim C8: the account-status report carries the current status, the
full flag list, the two-element restrictions list exactly when at least
one fraud-attempt flag exists and the empty list otherwise, the
verification status rejected exactly for a blocked account and verified
otherwise, and the count of fraud-attempt flags; and the query leaves
the state unchanged. -/
theorem c8_account_status_report (now : Int) (st : ServerState)
    (uid : String) (u : User) (hu : mapGet uid st.users = some u) :
    (∃ rep, accountStatusCore now st uid = StatusRes.ok rep ∧
      rep.accountId = uid ∧
      rep.status = u.status ∧
      rep.flags = flagsOf uid st ∧
      (rep.restrictions = ["betting_restricted", "withdrawal_restricted"] ↔
        ∃ f ∈ flagsOf uid st, f.kind = "fraud_attempt") ∧
      ((¬ ∃ f ∈ flagsOf uid st, f.kind = "fraud_attempt") →
        rep.restrictions = []) ∧
      rep.verificationStatus =
        (if u.status = "blocked" then "rejected" else "verified") ∧
      rep.fraudWarnings = fraudFlagCount uid st) ∧
    (∀ h, (accountStatus now st h).2 = st) := by
  constructor
  · have hcore : accountStatusCore now st uid = StatusRes.ok
        { accountId := uid, status := u.status, flags := flagsOf uid st,
          restrictions :=
            if (flagsOf uid st).any (fun f => decide (f.kind = "fraud_attempt"))
            then ["betting_restricted", "withdrawal_restricted"] else [],
          verificationStatus :=
            if u.status = "blocked" then "rejected" else "verified",
          fraudWarnings := fraudFlagCount uid st, lastUpdated := now } := by
      unfold accountStatusCore
      rw [hu]
      rfl
    refine ⟨_, hcore, rfl, rfl, rfl, ?_, ?_, rfl, rfl⟩
    · constructor
      · intro hres
        by_cases hany : (flagsOf uid st).any
            (fun f => decide (f.kind = "fraud_attempt")) = true
        · obtain ⟨f, hf, hfk⟩ := List.any_eq_true.mp hany
          exact ⟨f, hf, by simpa using hfk⟩
        · rw [if_neg hany] at hres
          exact absurd hres (by simp)
      · intro ⟨f, hf, hfk⟩
        rw [if_pos (List.any_eq_true.mpr ⟨f, hf, by simpa using hfk⟩)]
    · intro hnone
      have hany : ¬ (flagsOf uid st).any
          (fun f => decide (f.kind = "fraud_attempt")) = true := by
        intro hany
        obtain ⟨f, hf, hfk⟩ := List.any_eq_true.mp hany
        exact hnone ⟨f, hf, by simpa using hfk⟩
      rw [if_neg hany]
  · intro h
    exact accountStatus_state now st h

theorem c8_witness :
    (∃ rep, accountStatusCore 3 twoFlagState "u1" = StatusRes.ok rep ∧
      rep.accountId = "u1" ∧
      rep.status = demoUser.status ∧
      rep.flags = flagsOf "u1" twoFlagState ∧
      (rep.restrictions = ["betting_restricted", "withdrawal_restricted"] ↔
        ∃ f ∈ flagsOf "u1" twoFlagState, f.kind = "fraud_attempt") ∧
      ((¬ ∃ f ∈ flagsOf "u1" twoFlagState, f.kind = "fraud_attempt") →
        rep.restrictions = []) ∧
      rep.verificationStatus =
        (if demoUser.status = "blocked" then "rejected" else "verified") ∧
      rep.fraudWarnings = fraudFlagCount "u1" twoFlagState) ∧
    (∀ h, (accountStatus 3 twoFlagState h).2 = twoFlagState) :=
  c8_account_status_report 3 twoFlagState "u1" demoUser (by decide)

/-- Claim C9: bet placement never consults the account status: with a
valid session token of a blocked account, a bet request that passes
validation and matches no fraud rule is accepted, persisted as a
pending Bet record of that account, and appears in the account's bet
history afterwards. -/
theorem c9_blocked_account_can_place_bets (now : Int) (st : ServerState)
    (hdr : Option String) (tok uid : String) (u : User) (b : BetData)
    (hx : extractToken hdr = some tok)
    (hs : mapGet tok st.sessions = some uid)
    (_hu : mapGet uid st.users = some u)
    (_hblocked : u.status = "blocked")
    (hv : validateBet b = true)
    (hf : (evalFraud now b).1 = false) :
    placeBet now st hdr b =
      (ApiRes.ok (PlaceBetRes.ok (betIdOf now uid)
        (mkBetPublic (mkBet now uid b))),
       { st with bets := mapSet (betIdOf now uid) (mkBet now uid b) st.bets }) ∧
    (mkBet now uid b).status = "pending" ∧
    projectBet (mkBet now uid b) ∈ historyCore (placeBet now st hdr b).2 uid := by
  have hcore := placeBetCore_legit now st uid b hv hf
  have hp : placeBet now st hdr b =
      (ApiRes.ok (placeBetCore now st uid b).1, (placeBetCore now st uid b).2) :=
    withAuth_ok st hdr tok uid _ hx hs
  refine ⟨by rw [hp, hcore], rfl, ?_⟩
  rw [hp, hcore]
  unfold historyCore
  apply List.mem_map_of_mem projectBet
  rw [(List.perm_insertionSort newerEq _).mem_iff]
  apply List.mem_filter.mpr
  constructor
  · exact List.mem_map_of_mem _ (mem_mapSet_self (betIdOf now uid) (mkBet now uid b) st.bets)
  · simp [mkBet]

theorem c9_witness :
    placeBet 7 blockedState (some "Bearer tok1") legitBet =
      (ApiRes.ok (PlaceBetRes.ok (betIdOf 7 "u1")
        (mkBetPublic (mkBet 7 "u1" legitBet))),
       { blockedState with
          bets := mapSet (betIdOf 7 "u1") (mkBet 7 "u1" legitBet)
            blockedState.bets }) ∧
    (mkBet 7 "u1" legitBet).status = "pending" ∧
    projectBet (mkBet 7 "u1" legitBet) ∈
      historyCore (placeBet 7 blockedState (some "Bearer tok1") legitBet).2 "u1" :=
  c9_blocked_account_can_place_bets 7 blockedState (some "Bearer tok1")
    "tok1" "u1" { demoUser with status := "blocked" } legitBet
    (by decide) (by decide) (by decide) rfl (by decide) (by decide)

end MockServer
